import Mathlib

/-!
Verification of the MDAnalysis package-initializer excerpt and of the
trajectory-reader core its specification describes.

The repository excerpt under scrutiny is `package/MDAnalysis/__init__.py`,
the composition-root of the toolkit.  Its import-time behaviour (namespace
bindings, `__all__`, logging/warning configuration) is embedded directly
from that file.  The trajectory-reader core (unit system, frame buffer,
format reader/writer, iteration) is not part of the excerpt; those
components are modelled from the specification, as marked on each
definition.
-/

namespace MDA

/-! ### Unit system -/

/-- Modelled from the spec: the physical dimensions the unit system must
support at minimum (the unit-conversion module `MDAnalysis.units` is imported
by the initializer but its source is not in the excerpt). -/
inductive Dimension where
  | length
  | time
  | velocity
  | force
  | energy
  deriving DecidableEq, Repr

/-- Modelled from the spec: one entry of the mapping from unit name to a
canonical-unit scale factor per physical dimension. -/
structure UnitEntry where
  name : String
  dim : Dimension
  toCanonical : ℚ
  deriving DecidableEq, Repr

/-- Modelled from the spec: the table of supported units.  Canonical units
are Angstrom (length), picosecond (time), Angstrom per picosecond
(velocity), kilojoule per mole (energy) and kilojoule per mole per
Angstrom (force); exact rational factors stand in for the floating-point
factors of the implementation. -/
def unitTable : List UnitEntry :=
  [ ⟨"Angstrom", Dimension.length, 1⟩,
    ⟨"nm", Dimension.length, 10⟩,
    ⟨"pm", Dimension.length, 1 / 100⟩,
    ⟨"ps", Dimension.time, 1⟩,
    ⟨"ns", Dimension.time, 1000⟩,
    ⟨"fs", Dimension.time, 1 / 1000⟩,
    ⟨"Angstrom/ps", Dimension.velocity, 1⟩,
    ⟨"nm/ps", Dimension.velocity, 10⟩,
    ⟨"nm/ns", Dimension.velocity, 1 / 100⟩,
    ⟨"kJ/mol", Dimension.energy, 1⟩,
    ⟨"kcal/mol", Dimension.energy, 4184 / 1000⟩,
    ⟨"kJ/(mol*Angstrom)", Dimension.force, 1⟩,
    ⟨"kJ/(mol*nm)", Dimension.force, 1 / 10⟩ ]

/-- Look a unit name up in the table. -/
def lookupUnit (u : String) : Option UnitEntry :=
  unitTable.find? (fun e => e.name = u)

/-- Modelled from the spec: the error raised on incompatible or unknown
units (`UnitError` of the error taxonomy). -/
inductive UnitError where
  | unknownUnit (u : String)
  | incompatibleDims (u1 u2 : String)
  deriving DecidableEq, Repr

/-- Modelled from the spec: a value or an array, the argument shape
accepted by `convert`. -/
inductive PyValue where
  | scalar (v : ℚ)
  | array (vs : List ℚ)
  deriving DecidableEq, Repr

/-- Conversion of one number: a two-multiply operation, first to the
canonical unit of the dimension, then to the target unit. -/
def convertValue (e1 e2 : UnitEntry) (v : ℚ) : ℚ :=
  (v * e1.toCanonical) * e2.toCanonical⁻¹

/-- Modelled from the spec: `convert(value_or_array, from_unit, to_unit)`,
failing with `UnitError` on unknown units or on a dimension mismatch. -/
def convert (x : PyValue) (u1 u2 : String) : Except UnitError PyValue :=
  match lookupUnit u1 with
  | none => Except.error (UnitError.unknownUnit u1)
  | some e1 =>
    match lookupUnit u2 with
    | none => Except.error (UnitError.unknownUnit u2)
    | some e2 =>
      if e1.dim = e2.dim then
        match x with
        | PyValue.scalar v => Except.ok (PyValue.scalar (convertValue e1 e2 v))
        | PyValue.array vs => Except.ok (PyValue.array (vs.map (convertValue e1 e2)))
      else
        Except.error (UnitError.incompatibleDims u1 u2)

/-- Two values have the same shape when both are scalars or both are
arrays of equal length. -/
def sameShape : PyValue → PyValue → Bool
  | PyValue.scalar _, PyValue.scalar _ => true
  | PyValue.array vs, PyValue.array ws => vs.length = ws.length
  | _, _ => false

/-! ### The package initializer, embedded from `package/MDAnalysis/__init__.py` -/

/-- A value bound at module scope by the initializer: a name imported from
a module, the module-level `TimeseriesCollection` instance, a
`weakref.WeakSet` instance, or the list of strings assigned to `__all__`. -/
inductive Value where
  | imported (fromModule : String)
  | timeseriesCollectionInstance
  | weakSetInstance
  | strList (l : List String)
  deriving DecidableEq, Repr

/-- A process-wide side effect performed by the initializer: adding a
handler to a named logger, or installing a warnings filter via
`warnings.simplefilter`. -/
inductive Effect where
  | addLoggerHandler (loggerName handler : String)
  | simplefilter (action category : String)
  deriving DecidableEq, Repr

/-- The state built up while the module body executes: the module-level
name bindings (in order) and the process-wide effects performed. -/
structure ModuleState where
  bindings : List (String × Value)
  effects : List Effect
  deriving DecidableEq, Repr

/-- The state before the first statement of the module body runs. -/
def ModuleState.empty : ModuleState := ⟨[], []⟩

/-- An assignment or import statement: binds a name, overriding any
previous binding of the same name. -/
def ModuleState.bind (s : ModuleState) (n : String) (v : Value) : ModuleState :=
  { s with bindings := s.bindings.filter (fun p => p.1 != n) ++ [(n, v)] }

/-- A `del` statement: removes a binding. -/
def ModuleState.unbind (s : ModuleState) (n : String) : ModuleState :=
  { s with bindings := s.bindings.filter (fun p => p.1 != n) }

/-- A statement performing a process-wide side effect. -/
def ModuleState.effect (s : ModuleState) (e : Effect) : ModuleState :=
  { s with effects := s.effects ++ [e] }

/-- The value bound to a name, if any. -/
def ModuleState.lookup (s : ModuleState) (n : String) : Option Value :=
  (s.bindings.find? (fun p => p.1 == n)).map Prod.snd

/-- Whether a name is an attribute of the module. -/
def ModuleState.isBound (s : ModuleState) (n : String) : Bool :=
  (s.lookup n).isSome

/-- The list literal assigned to `__all__` on line 137 of the source. -/
def mdanalysisAll : List String :=
  ["Timeseries", "Universe", "as_Universe", "Writer", "collection"]

/-- The import-time execution of `package/MDAnalysis/__init__.py`, statement
by statement in source order: the `__all__` assignment, the imports, the
logging handler installation followed by `del logging`, the
`warnings.simplefilter` call, the often-used names brought into the
namespace, the `TimeseriesCollection()` singleton, and the weak sets
followed by `del weakref`. -/
def mdanalysisInit : ModuleState :=
  ModuleState.empty
    |>.bind "__all__" (Value.strList mdanalysisAll)
    |>.bind "logging" (Value.imported "logging")
    |>.bind "warnings" (Value.imported "warnings")
    |>.bind "__version__" (Value.imported "MDAnalysis.version")
    |>.bind "SelectionError" (Value.imported "MDAnalysis.exceptions")
    |>.bind "FinishTimeException" (Value.imported "MDAnalysis.exceptions")
    |>.bind "NoDataError" (Value.imported "MDAnalysis.exceptions")
    |>.bind "ApplicationError" (Value.imported "MDAnalysis.exceptions")
    |>.bind "SelectionWarning" (Value.imported "MDAnalysis.exceptions")
    |>.bind "MissingDataWarning" (Value.imported "MDAnalysis.exceptions")
    |>.bind "ConversionWarning" (Value.imported "MDAnalysis.exceptions")
    |>.bind "FileFormatWarning" (Value.imported "MDAnalysis.exceptions")
    |>.bind "StreamWarning" (Value.imported "MDAnalysis.exceptions")
    |>.bind "log" (Value.imported "MDAnalysis.lib")
    |>.bind "start_logging" (Value.imported "MDAnalysis.lib.log")
    |>.bind "stop_logging" (Value.imported "MDAnalysis.lib.log")
    |>.effect (Effect.addLoggerHandler "MDAnalysis" "NullHandler")
    |>.unbind "logging"
    |>.effect (Effect.simplefilter "always" "DeprecationWarning")
    |>.bind "units" (Value.imported "MDAnalysis")
    |>.bind "Timeseries" (Value.imported "MDAnalysis.core")
    |>.bind "Universe" (Value.imported "MDAnalysis.core.AtomGroup")
    |>.bind "as_Universe" (Value.imported "MDAnalysis.core.AtomGroup")
    |>.bind "Merge" (Value.imported "MDAnalysis.core.AtomGroup")
    |>.bind "Writer" (Value.imported "MDAnalysis.coordinates.core")
    |>.bind "collection" Value.timeseriesCollectionInstance
    |>.bind "weakref" (Value.imported "weakref")
    |>.bind "_anchor_universes" Value.weakSetInstance
    |>.bind "_named_anchor_universes" Value.weakSetInstance
    |>.unbind "weakref"

/-- The set of names the C1 sentence of the spec enumerates as the exposed
interface: the Universe constructor with `as_Universe`, the writer factory,
the exception and warning types, and the collection singleton. -/
def claimedExposedNames : List String :=
  ["Universe", "as_Universe", "Writer",
   "SelectionError", "FinishTimeException", "NoDataError", "ApplicationError",
   "SelectionWarning", "MissingDataWarning", "ConversionWarning",
   "FileFormatWarning", "StreamWarning",
   "collection"]

/-- One entry of the process-wide warnings filter list: an action and the
warning category it applies to. -/
structure WarningsFilter where
  action : String
  category : String
  deriving DecidableEq, Repr

/-- The process-wide state the initializer's effects act on: the warnings
filter list (front entry matched first) and the handlers attached to each
named logger, as (logger, handler) pairs in order of addition. -/
structure ProcessState where
  filters : List WarningsFilter
  loggerHandlers : List (String × String)
  deriving DecidableEq, Repr

/-- The relevant slice of the interpreter's default state: a
DeprecationWarning is governed by a "default" filter, i.e. displayed only
on its first occurrence per location, and no handler is attached to the
"MDAnalysis" logger. -/
def initialProcess : ProcessState :=
  ⟨[⟨"default", "DeprecationWarning"⟩], []⟩

/-- Apply one initializer effect to the process state:
`warnings.simplefilter` prepends a filter entry, `addHandler` appends a
handler to the named logger. -/
def applyEffect (p : ProcessState) : Effect → ProcessState
  | Effect.addLoggerHandler lg h => { p with loggerHandlers := p.loggerHandlers ++ [(lg, h)] }
  | Effect.simplefilter a c => { p with filters := ⟨a, c⟩ :: p.filters }

/-- Apply a list of effects in order. -/
def applyEffects (p : ProcessState) (es : List Effect) : ProcessState :=
  es.foldl applyEffect p

/-- The process state once the import has completed. -/
def afterImport : ProcessState :=
  applyEffects initialProcess mdanalysisInit.effects

/-- Whether a warning of the given category, already displayed `seen` times
at its source location, is displayed again: the first matching filter
decides; action "always" always displays, "default" and "once" only on the
first occurrence, every other action suppresses; with no matching filter
the warning is displayed once. -/
def shouldDisplay (filters : List WarningsFilter) (category : String) (seen : ℕ) : Bool :=
  match filters.find? (fun f => f.category == category) with
  | some f =>
    if f.action == "always" then true
    else if f.action == "default" || f.action == "once" then seen == 0
    else false
  | none => seen == 0

/-- The handlers attached to a named logger, in order of addition. -/
def handlersOf (p : ProcessState) (lg : String) : List String :=
  (p.loggerHandlers.filter (fun q => q.1 == lg)).map Prod.snd

/-! ### Frame buffer, format reader and format writer
(modelled from the spec: the trajectory-reader core lives in the
`MDAnalysis.coordinates` sub-packages, which are imported by the
initializer but whose source is not in the excerpt). -/

/-- A 3-D vector with exact rational coordinates standing in for the
floating-point coordinates of the implementation. -/
structure Vec3 where
  x : ℚ
  y : ℚ
  z : ℚ
  deriving DecidableEq, Repr, Inhabited

/-- Modelled from the spec: the box descriptor, three lengths and three
angles. -/
structure BoxDesc where
  lx : ℚ
  ly : ℚ
  lz : ℚ
  alpha : ℚ
  beta : ℚ
  gamma : ℚ
  deriving DecidableEq, Repr, Inhabited

/-- Modelled from the spec: one frame as laid down in a trajectory file,
in the format's native units. -/
structure Frame where
  positions : List Vec3
  velocities : Option (List Vec3)
  forces : Option (List Vec3)
  box : BoxDesc
  time : ℚ
  deriving DecidableEq, Repr, Inhabited

/-- Modelled from the spec: the Frame Buffer — a single mutable record
holding one trajectory snapshot: positions, optional velocities and
forces, box geometry, simulation time and frame index, in internal
(canonical) units when conversion is on. -/
structure FrameBuffer where
  natoms : ℕ
  positions : List Vec3
  velocities : Option (List Vec3)
  forces : Option (List Vec3)
  box : BoxDesc
  time : ℚ
  frameIndex : ℕ
  deriving DecidableEq, Repr, Inhabited

/-- Modelled from the spec: a registry entry's capability flags together
with the native units of the format. -/
structure FormatCaps where
  seekable : Bool
  lengthUnit : String
  timeUnit : String
  velocityUnit : String
  forceUnit : String
  deriving DecidableEq, Repr

/-- Modelled from the spec: the error taxonomy of the trajectory core. -/
inductive MDError where
  | formatError
  | ioError
  | unknownFormatError
  | notSupportedError
  | dimensionMismatchError
  | unitError
  | indexError
  deriving DecidableEq, Repr

/-- The factor taking the format's native length unit to the canonical
length unit, defaulting to 1 for a format that already uses it. -/
def lengthFactor (caps : FormatCaps) : ℚ :=
  match lookupUnit caps.lengthUnit with
  | some e => e.toCanonical
  | none => 1

/-- The factor taking the format's native time unit to the canonical one. -/
def timeFactor (caps : FormatCaps) : ℚ :=
  match lookupUnit caps.timeUnit with
  | some e => e.toCanonical
  | none => 1

/-- The factor taking the format's native velocity unit to the canonical
one. -/
def velocityFactor (caps : FormatCaps) : ℚ :=
  match lookupUnit caps.velocityUnit with
  | some e => e.toCanonical
  | none => 1

/-- The factor taking the format's native force unit to the canonical
one. -/
def forceFactor (caps : FormatCaps) : ℚ :=
  match lookupUnit caps.forceUnit with
  | some e => e.toCanonical
  | none => 1

/-- Scale a vector componentwise. -/
def scaleVec (c : ℚ) (v : Vec3) : Vec3 :=
  ⟨v.x * c, v.y * c, v.z * c⟩

/-- Scale the box lengths, leaving the angles alone. -/
def scaleBox (c : ℚ) (b : BoxDesc) : BoxDesc :=
  { b with lx := b.lx * c, ly := b.ly * c, lz := b.lz * c }

/-- Modelled from the spec: decoding one on-file frame into the Frame
Buffer, applying unit conversion during decode (not after). -/
def decodeFrame (caps : FormatCaps) (convertUnits : Bool) (natoms i : ℕ)
    (f : Frame) : FrameBuffer :=
  let cl := if convertUnits then lengthFactor caps else 1
  let ct := if convertUnits then timeFactor caps else 1
  let cv := if convertUnits then velocityFactor caps else 1
  let cf := if convertUnits then forceFactor caps else 1
  { natoms := natoms
    positions := f.positions.map (scaleVec cl)
    velocities := f.velocities.map (fun vs => vs.map (scaleVec cv))
    forces := f.forces.map (fun vs => vs.map (scaleVec cf))
    box := scaleBox cl f.box
    time := f.time * ct
    frameIndex := i }

/-- Modelled from the spec: serializing one Frame Buffer snapshot for
output, applying the inverse unit conversion back to the format's native
units. -/
def encodeFrame (caps : FormatCaps) (convertUnits : Bool)
    (fb : FrameBuffer) : Frame :=
  let cl := if convertUnits then (lengthFactor caps)⁻¹ else 1
  let ct := if convertUnits then (timeFactor caps)⁻¹ else 1
  let cv := if convertUnits then (velocityFactor caps)⁻¹ else 1
  let cf := if convertUnits then (forceFactor caps)⁻¹ else 1
  { positions := fb.positions.map (scaleVec cl)
    velocities := fb.velocities.map (fun vs => vs.map (scaleVec cv))
    forces := fb.forces.map (fun vs => vs.map (scaleVec cf))
    box := scaleBox cl fb.box
    time := fb.time * ct }

/-- Modelled from the spec: the Format Reader state — capability flags,
fixed atom count, the decoded file content in native units, the
unit-conversion configuration, the number of frames consumed so far
(`pos`, 0 meaning before the first frame), the highest frame count ever
reached by sequential reads, the open/closed flag, and the exclusively
owned Frame Buffer. -/
structure Reader where
  caps : FormatCaps
  natoms : ℕ
  frames : List Frame
  convertUnits : Bool
  pos : ℕ
  maxReached : ℕ
  isOpen : Bool
  buffer : FrameBuffer
  deriving DecidableEq, Repr

/-- The Frame Buffer as allocated when the reader is opened, sized from
the supplied atom count. -/
def initialBuffer (natoms : ℕ) : FrameBuffer :=
  { natoms := natoms
    positions := List.replicate natoms default
    velocities := none
    forces := none
    box := default
    time := 0
    frameIndex := 0 }

/-- Modelled from the spec: opening a reader over decoded file content,
before the first frame. -/
def openReaderOn (caps : FormatCaps) (convertUnits : Bool) (natoms : ℕ)
    (frames : List Frame) : Reader :=
  { caps := caps
    natoms := natoms
    frames := frames
    convertUnits := convertUnits
    pos := 0
    maxReached := 0
    isOpen := true
    buffer := initialBuffer natoms }

/-- Consume the next frame: decode it into the Frame Buffer and advance
the current index. -/
def Reader.advance (r : Reader) : Reader :=
  { r with
    pos := r.pos + 1
    maxReached := max r.maxReached (r.pos + 1)
    buffer := decodeFrame r.caps r.convertUnits r.natoms r.pos
      (r.frames.getD r.pos default) }

/-- Modelled from the spec: `read_next_frame() -> bool` — advances to the
next frame, decodes it into the Frame Buffer and returns true, or returns
false (not an error) at end-of-stream; a closed reader rejects the
operation. -/
def read_next_frame (r : Reader) : Except MDError (Bool × Reader) :=
  if r.isOpen then
    if r.pos < r.frames.length then Except.ok (true, r.advance)
    else Except.ok (false, r)
  else Except.error MDError.ioError

/-- Modelled from the spec: `read_frame(index) -> FrameBuffer` — random
access; out-of-range indices fail with `IndexError`; a non-seekable (pure
streaming) format fails with `NotSupportedError` unless the requested
frame has already been reached by prior sequential reads. -/
def read_frame (r : Reader) (i : ℕ) : Except MDError (FrameBuffer × Reader) :=
  if r.isOpen then
    if i < r.frames.length then
      if r.caps.seekable = true ∨ i < r.maxReached then
        let r2 : Reader :=
          { r with
            pos := i + 1
            maxReached := max r.maxReached (i + 1)
            buffer := decodeFrame r.caps r.convertUnits r.natoms i
              (r.frames.getD i default) }
        Except.ok (r2.buffer, r2)
      else Except.error MDError.notSupportedError
    else Except.error MDError.indexError
  else Except.error MDError.ioError

/-- Modelled from the spec: `close()` releases the handle; idempotent. -/
def Reader.close (r : Reader) : Reader :=
  { r with isOpen := false }

/-- Reset the current index to before the first frame and the Frame Buffer
to its freshly allocated state, keeping what has been reached so far. -/
def reopen (r : Reader) : Reader :=
  { r with pos := 0, buffer := initialBuffer r.natoms }

/-- Modelled from the spec: `rewind()` resets the Frame Buffer and the
current index and delivers frame 0.  On a seekable format this coincides
with `read_frame(0)`; on a pure stream it realizes the explicit sequential
re-scan from frame 0. -/
def rewind (r : Reader) : Except MDError (FrameBuffer × Reader) :=
  match read_next_frame (reopen r) with
  | Except.ok (true, r2) => Except.ok (r2.buffer, r2)
  | Except.ok (false, _) => Except.error MDError.ioError
  | Except.error e => Except.error e

/-- Sequential iteration: repeatedly call `read_next_frame`, recording the
Frame Buffer snapshot delivered after each successful read, stopping at
the first false return (or error). -/
def collectSnapshots : Reader → ℕ → List FrameBuffer
  | _, 0 => []
  | r, fuel + 1 =>
    match read_next_frame r with
    | Except.ok (true, r2) => r2.buffer :: collectSnapshots r2 fuel
    | _ => []

/-- Modelled from the spec: one full sequential iteration restarted from
rewind — the index is reset and frames are then delivered by successive
sequential reads until the false return. -/
def iterateFromRewind (r : Reader) : List FrameBuffer :=
  collectSnapshots (reopen r) r.frames.length

/-- Modelled from the spec: setting the Frame Buffer's coordinate array;
an array of mismatched atom count is rejected with
`DimensionMismatchError`. -/
def set_positions (fb : FrameBuffer) (xs : List Vec3) : Except MDError FrameBuffer :=
  if xs.length = fb.natoms then Except.ok { fb with positions := xs }
  else Except.error MDError.dimensionMismatchError

/-- Modelled from the spec: the Format Writer state — capability flags,
the atom count fixed by the first frame, the unit-conversion
configuration, the frames serialized so far (in native units) and the
open/closed flag. -/
structure Writer where
  caps : FormatCaps
  natoms : ℕ
  convertUnits : Bool
  written : List Frame
  isOpen : Bool
  deriving DecidableEq, Repr

/-- Open a writer for a fixed-frame-size format with the given atom
count. -/
def mkWriter (caps : FormatCaps) (convertUnits : Bool) (natoms : ℕ) : Writer :=
  { caps := caps
    natoms := natoms
    convertUnits := convertUnits
    written := []
    isOpen := true }

/-- Modelled from the spec: `write(frame_buffer)` appends one frame,
applying inverse unit conversion to the format's native units; a frame
whose atom count differs from the writer's fails with
`DimensionMismatchError`. -/
def Writer.write (w : Writer) (fb : FrameBuffer) : Except MDError Writer :=
  if w.isOpen then
    if fb.positions.length = w.natoms then
      Except.ok { w with written := w.written ++ [encodeFrame w.caps w.convertUnits fb] }
    else Except.error MDError.dimensionMismatchError
  else Except.error MDError.ioError

/-- Write a list of Frame Buffer snapshots in order, stopping at the
first failure. -/
def writeFrames : Writer → List FrameBuffer → Except MDError Writer
  | w, [] => Except.ok w
  | w, fb :: rest =>
    match w.write fb with
    | Except.ok w2 => writeFrames w2 rest
    | Except.error e => Except.error e

/-- Whether a Frame Buffer satisfies the length invariant for the given
atom count: the buffer's own atom count matches and positions, velocities
and forces (when present) have exactly that length. -/
def sizedBuffer (natoms : ℕ) (fb : FrameBuffer) : Bool :=
  fb.natoms == natoms && fb.positions.length == natoms &&
  (match fb.velocities with
   | some vs => vs.length == natoms
   | none => true) &&
  (match fb.forces with
   | some vs => vs.length == natoms
   | none => true)

/-- Whether an on-file frame carries the given atom count. -/
def sizedFrame (natoms : ℕ) (f : Frame) : Bool :=
  f.positions.length == natoms &&
  (match f.velocities with
   | some vs => vs.length == natoms
   | none => true) &&
  (match f.forces with
   | some vs => vs.length == natoms
   | none => true)

/-- Whether every frame of a trajectory carries the given atom count. -/
def sizedFrames (natoms : ℕ) (frames : List Frame) : Bool :=
  frames.all (sizedFrame natoms)

/-- The concrete scenario of the spec: a 10-frame trajectory with atom
count 214, positions in nanometers. -/
def sampleFrames : List Frame :=
  (List.range 10).map (fun k =>
    { positions := List.replicate 214 ⟨1, 2, 3⟩
      velocities := none
      forces := none
      box := default
      time := k
      : Frame })

/-- A seekable format whose native units are nanometers and picoseconds. -/
def sampleCaps : FormatCaps :=
  { seekable := true
    lengthUnit := "nm"
    timeUnit := "ps"
    velocityUnit := "nm/ps"
    forceUnit := "kJ/(mol*nm)" }

/-- The sample reader freshly opened with unit conversion on. -/
def sampleReader : Reader :=
  openReaderOn sampleCaps true 214 sampleFrames

/-- The sample reader after its ten sequential reads. -/
def sampleReaderAtEnd : Reader :=
  { sampleReader with
    pos := 10
    maxReached := 10
    buffer := decodeFrame sampleCaps true 214 9 (sampleFrames.getD 9 default) }

/-- The same format as a pure stream (no random access). -/
def streamCaps : FormatCaps :=
  { sampleCaps with seekable := false }

/-- A reader freshly opened over the sample trajectory as a pure stream. -/
def streamReader : Reader :=
  openReaderOn streamCaps true 214 sampleFrames

/-- The streaming reader after four sequential reads: frames 0..3 have
been reached. -/
def streamReaderAfter4 : Reader :=
  { streamReader with
    pos := 4
    maxReached := 4
    buffer := decodeFrame streamCaps true 214 3 (sampleFrames.getD 3 default) }

/-- Two concrete 2-atom snapshots used to exercise the write/read round
trip. -/
def sampleBufs : List FrameBuffer :=
  [ { natoms := 2
      positions := [⟨1, 2, 3⟩, ⟨4, 5, 6⟩]
      velocities := none
      forces := none
      box := default
      time := 0
      frameIndex := 0 },
    { natoms := 2
      positions := [⟨7, 8, 9⟩, ⟨10, 11, 12⟩]
      velocities := none
      forces := none
      box := default
      time := 1
      frameIndex := 1 } ]

/-! ### Lemmas -/

/-- Every scale factor in the unit table is positive. -/
lemma unitTable_pos : ∀ e ∈ unitTable, 0 < e.toCanonical := by
  intro e he
  fin_cases he <;> norm_num

/-- A successful lookup returns a table entry. -/
lemma lookupUnit_mem {u : String} {e : UnitEntry} (h : lookupUnit u = some e) :
    e ∈ unitTable :=
  List.mem_of_find?_eq_some h

/-- A successful lookup returns an entry with a positive factor. -/
lemma lookupUnit_pos {u : String} {e : UnitEntry} (h : lookupUnit u = some e) :
    0 < e.toCanonical :=
  unitTable_pos e (lookupUnit_mem h)

/-- Converting forth and back is the identity on each number, since the
factors are nonzero. -/
lemma convertValue_roundtrip {e1 e2 : UnitEntry} (h1 : e1.toCanonical ≠ 0)
    (h2 : e2.toCanonical ≠ 0) (v : ℚ) :
    convertValue e2 e1 (convertValue e1 e2 v) = v := by
  unfold convertValue
  field_simp

/-- Pointwise inverse maps compose to the identity on a list. -/
lemma map_convertValue_roundtrip {e1 e2 : UnitEntry} (h1 : e1.toCanonical ≠ 0)
    (h2 : e2.toCanonical ≠ 0) (vs : List ℚ) :
    (vs.map (convertValue e1 e2)).map (convertValue e2 e1) = vs := by
  rw [List.map_map]
  have h : ∀ v ∈ vs, (convertValue e2 e1 ∘ convertValue e1 e2) v = id v := by
    intro v _
    simpa using convertValue_roundtrip h1 h2 v
  rw [List.map_congr_left h, List.map_id]

/-- C3: converting a value from one unit to a compatible one and back
returns the original value exactly (hence within floating-point
tolerance), the conversion being the two-multiply operation through the
canonical unit. -/
theorem convert_roundtrip (x y : PyValue) (u1 u2 : String)
    (h : convert x u1 u2 = Except.ok y) :
    convert y u2 u1 = Except.ok x := by
  unfold convert at h ⊢
  cases hl1 : lookupUnit u1 with
  | none => simp [hl1] at h
  | some e1 =>
    cases hl2 : lookupUnit u2 with
    | none => simp [hl1, hl2] at h
    | some e2 =>
      simp only [hl1, hl2] at h ⊢
      by_cases hdim : e1.dim = e2.dim
      · rw [if_pos hdim] at h
        rw [if_pos hdim.symm]
        have h1 : e1.toCanonical ≠ 0 := ne_of_gt (lookupUnit_pos hl1)
        have h2 : e2.toCanonical ≠ 0 := ne_of_gt (lookupUnit_pos hl2)
        cases x with
        | scalar v =>
          simp only [Except.ok.injEq] at h
          subst h
          simp [convertValue_roundtrip h1 h2]
        | array vs =>
          simp only [Except.ok.injEq] at h
          subst h
          simp [map_convertValue_roundtrip h1 h2]
      · rw [if_neg hdim] at h
        simp at h

/-- C3 witness: one nanometer-to-Angstrom round trip on the value 1. -/
theorem convert_roundtrip_witness :
    convert (PyValue.scalar 1) "nm" "Angstrom"
        = Except.ok (PyValue.scalar ((1 * 10) * 1⁻¹)) ∧
    convert (PyValue.scalar ((1 * 10) * 1⁻¹)) "Angstrom" "nm"
        = Except.ok (PyValue.scalar 1) :=
  ⟨rfl, convert_roundtrip (PyValue.scalar 1) (PyValue.scalar ((1 * 10) * 1⁻¹))
    "nm" "Angstrom" rfl⟩

/-- C4: `convert` keeps the shape of its argument whenever it succeeds,
and fails (with a `UnitError`) exactly when one of the two units is
unknown or the units live in different physical dimensions. -/
theorem convert_shape_and_failure (x : PyValue) (u1 u2 : String) :
    (∀ y, convert x u1 u2 = Except.ok y → sameShape x y = true) ∧
    ((∃ err, convert x u1 u2 = Except.error err) ↔
      lookupUnit u1 = none ∨ lookupUnit u2 = none ∨
        ∃ e1 e2, lookupUnit u1 = some e1 ∧ lookupUnit u2 = some e2 ∧
          e1.dim ≠ e2.dim) := by
  unfold convert
  cases hl1 : lookupUnit u1 with
  | none =>
    refine ⟨by simp, ?_⟩
    simp
  | some e1 =>
    cases hl2 : lookupUnit u2 with
    | none =>
      refine ⟨by simp [hl1], ?_⟩
      simp [hl1]
    | some e2 =>
      simp only [hl1, hl2]
      by_cases hdim : e1.dim = e2.dim
      · rw [if_pos hdim]
        constructor
        · intro y hy
          cases x with
          | scalar v =>
            simp only [Except.ok.injEq] at hy
            subst hy
            rfl
          | array vs =>
            simp only [Except.ok.injEq] at hy
            subst hy
            simp [sameShape]
        · constructor
          · rintro ⟨err, herr⟩
            cases x <;> simp at herr
          · rintro (h | h | ⟨f1, f2, hf1, hf2, hne⟩)
            · exact absurd h (by simp)
            · exact absurd h (by simp)
            · simp only [Option.some.injEq] at hf1 hf2
              subst hf1
              subst hf2
              exact absurd hdim hne
      · rw [if_neg hdim]
        refine ⟨by simp, ?_⟩
        constructor
        · intro _
          exact Or.inr (Or.inr ⟨e1, e2, rfl, rfl, hdim⟩)
        · intro _
          exact ⟨UnitError.incompatibleDims u1 u2, rfl⟩

/-- C4 witness: a two-element array converted from nanometers keeps its
shape, and a length-to-time conversion fails. -/
theorem convert_shape_and_failure_witness :
    convert (PyValue.array [3, 4]) "nm" "Angstrom"
        = Except.ok (PyValue.array ([3, 4].map
            (convertValue ⟨"nm", Dimension.length, 10⟩
              ⟨"Angstrom", Dimension.length, 1⟩))) ∧
    sameShape (PyValue.array [3, 4])
        (PyValue.array ([3, 4].map
          (convertValue ⟨"nm", Dimension.length, 10⟩
            ⟨"Angstrom", Dimension.length, 1⟩))) = true ∧
    (∃ err, convert (PyValue.scalar 1) "nm" "ps" = Except.error err) :=
  ⟨rfl,
   (convert_shape_and_failure (PyValue.array [3, 4]) "nm" "Angstrom").1 _ rfl,
   (convert_shape_and_failure (PyValue.scalar 1) "nm" "ps").2.mpr
     (Or.inr (Or.inr ⟨⟨"nm", Dimension.length, 10⟩, ⟨"ps", Dimension.time, 1⟩,
       rfl, rfl, by decide⟩))⟩

/-- C1 fails as stated: the exported interface is not exactly the
enumerated set.  `Timeseries` is listed in `__all__` and bound in the
module yet missing from the enumeration, `Merge` is bound yet missing from
the enumeration, and the exception and warning types, although bound, are
absent from the `__all__` export list — shown here for `SelectionError`. -/
theorem c1_counterexample :
    mdanalysisInit.lookup "__all__" = some (Value.strList mdanalysisAll) ∧
    "Timeseries" ∈ mdanalysisAll ∧
    "Timeseries" ∉ claimedExposedNames ∧
    mdanalysisInit.isBound "Timeseries" = true ∧
    mdanalysisInit.isBound "Merge" = true ∧
    "Merge" ∉ claimedExposedNames ∧
    "SelectionError" ∈ claimedExposedNames ∧
    "SelectionError" ∉ mdanalysisAll := by
  decide

/-- C1 amended: the initializer's `__all__` export list is exactly
`Timeseries, Universe, as_Universe, Writer, collection`; the Universe
constructor with `as_Universe`, the writer factory, the exception and
warning types and the collection singleton are all bound in the module
namespace (the exception and warning types without being listed in
`__all__`); and the only process-wide side effects are the logging-handler
installation and the warnings-filter configuration. -/
theorem c1_amended :
    mdanalysisAll = ["Timeseries", "Universe", "as_Universe", "Writer", "collection"] ∧
    mdanalysisInit.lookup "__all__" = some (Value.strList mdanalysisAll) ∧
    claimedExposedNames.all (fun n => mdanalysisInit.isBound n) = true ∧
    mdanalysisInit.effects
      = [Effect.addLoggerHandler "MDAnalysis" "NullHandler",
         Effect.simplefilter "always" "DeprecationWarning"] := by
  decide

/-- C9: importing the package attaches a NullHandler to the process-wide
"MDAnalysis" logger and installs an "always" filter for
DeprecationWarning, so every DeprecationWarning is displayed on every
occurrence afterwards, whereas the pre-import state displayed it only
once. -/
theorem c9_logging_and_warnings :
    handlersOf afterImport "MDAnalysis" = ["NullHandler"] ∧
    (∀ seen : ℕ, shouldDisplay afterImport.filters "DeprecationWarning" seen = true) ∧
    shouldDisplay initialProcess.filters "DeprecationWarning" 1 = false :=
  ⟨rfl, fun _ => rfl, rfl⟩

/-- C10: after import, `__all__` is exactly the five-name list, the name
`collection` is bound to the single TimeseriesCollection instance created
at import time (no other binding holds one), and the helper names
`logging` and `weakref` used during initialization have been deleted. -/
theorem c10_all_collection_and_dels :
    mdanalysisInit.lookup "__all__"
      = some (Value.strList
          ["Timeseries", "Universe", "as_Universe", "Writer", "collection"]) ∧
    mdanalysisInit.lookup "collection" = some Value.timeseriesCollectionInstance ∧
    (mdanalysisInit.bindings.filter
        (fun p => decide (p.2 = Value.timeseriesCollectionInstance))).length = 1 ∧
    mdanalysisInit.isBound "logging" = false ∧
    mdanalysisInit.isBound "weakref" = false := by
  decide

/-- An open reader with frames remaining advances and reports true. -/
lemma read_next_frame_of_lt {r : Reader} (hopen : r.isOpen = true)
    (hlt : r.pos < r.frames.length) :
    read_next_frame r = Except.ok (true, r.advance) := by
  unfold read_next_frame
  rw [if_pos hopen, if_pos hlt]

/-- An open reader at end-of-stream reports false unchanged. -/
lemma read_next_frame_of_ge {r : Reader} (hopen : r.isOpen = true)
    (hge : r.frames.length ≤ r.pos) :
    read_next_frame r = Except.ok (false, r) := by
  unfold read_next_frame
  rw [if_pos hopen, if_neg (not_lt.mpr hge)]

/-- C5: on an open reader, while frames remain `read_next_frame` decodes
the next frame into the Frame Buffer, advances the cursor and returns
true; and it returns false — without error, the sole non-error
termination signal — exactly at end-of-stream. -/
theorem read_next_frame_spec (r : Reader) (h : r.isOpen = true) :
    (r.pos < r.frames.length →
      read_next_frame r = Except.ok (true, r.advance) ∧
      r.advance.buffer
        = decodeFrame r.caps r.convertUnits r.natoms r.pos
            (r.frames.getD r.pos default) ∧
      r.advance.pos = r.pos + 1) ∧
    (r.frames.length ≤ r.pos ↔ read_next_frame r = Except.ok (false, r)) := by
  constructor
  · intro hlt
    exact ⟨read_next_frame_of_lt h hlt, rfl, rfl⟩
  · constructor
    · intro hge
      exact read_next_frame_of_ge h hge
    · intro heq
      by_contra hlt
      push_neg at hlt
      rw [read_next_frame_of_lt h hlt] at heq
      simp at heq

/-- C5 witness: the spec's 10-frame, 214-atom scenario — the fresh
reader's first sequential read returns true, and on the reader that has
consumed all ten frames the eleventh call returns false. -/
theorem read_next_frame_spec_witness :
    sampleReader.isOpen = true ∧
    sampleReader.pos < sampleReader.frames.length ∧
    read_next_frame sampleReader = Except.ok (true, sampleReader.advance) ∧
    sampleReaderAtEnd.isOpen = true ∧
    sampleReaderAtEnd.frames.length ≤ sampleReaderAtEnd.pos ∧
    read_next_frame sampleReaderAtEnd = Except.ok (false, sampleReaderAtEnd) :=
  ⟨rfl, by decide, ((read_next_frame_spec sampleReader rfl).1 (by decide)).1,
   rfl, by decide,
   (read_next_frame_spec sampleReaderAtEnd rfl).2.mp (by decide)⟩

/-- C6: `read_frame` on an open reader fails with `IndexError` for an
out-of-range index; on a non-seekable (pure streaming) format an in-range
request fails with `NotSupportedError` when the frame has not been
reached by prior sequential reads, and succeeds when it has. -/
theorem read_frame_errors (r : Reader) (i : ℕ) (h : r.isOpen = true) :
    (r.frames.length ≤ i → read_frame r i = Except.error MDError.indexError) ∧
    (i < r.frames.length → r.caps.seekable = false → r.maxReached ≤ i →
      read_frame r i = Except.error MDError.notSupportedError) ∧
    (i < r.frames.length → r.caps.seekable = false → i < r.maxReached →
      ∃ out, read_frame r i = Except.ok out) := by
  refine ⟨?_, ?_, ?_⟩
  · intro hge
    unfold read_frame
    rw [if_pos h, if_neg (not_lt.mpr hge)]
  · intro hlt hseek hmax
    unfold read_frame
    have hcond : ¬(r.caps.seekable = true ∨ i < r.maxReached) := by
      rintro (hs | hm)
      · rw [hseek] at hs
        exact Bool.false_ne_true hs
      · omega
    rw [if_pos h, if_pos hlt, if_neg hcond]
  · intro hlt hseek hmax
    unfold read_frame
    rw [if_pos h, if_pos hlt, if_pos (Or.inr hmax)]
    exact ⟨_, rfl⟩

/-- C6 witness: `read_frame 15` on the 10-frame reader raises IndexError;
on the fresh streaming reader `read_frame 3` raises NotSupportedError,
while after four sequential reads the same request succeeds. -/
theorem read_frame_errors_witness :
    sampleReader.isOpen = true ∧
    sampleReader.frames.length ≤ 15 ∧
    read_frame sampleReader 15 = Except.error MDError.indexError ∧
    streamReader.isOpen = true ∧
    streamReader.caps.seekable = false ∧
    3 < streamReader.frames.length ∧
    streamReader.maxReached ≤ 3 ∧
    read_frame streamReader 3 = Except.error MDError.notSupportedError ∧
    streamReaderAfter4.isOpen = true ∧
    streamReaderAfter4.caps.seekable = false ∧
    3 < streamReaderAfter4.maxReached ∧
    (∃ out, read_frame streamReaderAfter4 3 = Except.ok out) :=
  ⟨rfl, by decide, (read_frame_errors sampleReader 15 rfl).1 (by decide),
   rfl, rfl, by decide, by decide,
   (read_frame_errors streamReader 3 rfl).2.1 (by decide) rfl (by decide),
   rfl, rfl, by decide,
   (read_frame_errors streamReaderAfter4 3 rfl).2.2 (by decide) rfl (by decide)⟩

/-- One sequential scan with exactly enough fuel delivers, in order, the
decoded frames from the current index to the end of the trajectory. -/
lemma collectSnapshots_eq :
    ∀ (fuel : ℕ) (r : Reader), r.isOpen = true →
      r.pos + fuel = r.frames.length →
      collectSnapshots r fuel
        = (List.range' r.pos fuel).map (fun i =>
            decodeFrame r.caps r.convertUnits r.natoms i
              (r.frames.getD i default)) := by
  intro fuel
  induction fuel with
  | zero =>
    intro r _ _
    rfl
  | succ n ih =>
    intro r hopen hlen
    have hlt : r.pos < r.frames.length := by omega
    have hadv : collectSnapshots r (n + 1)
        = r.advance.buffer :: collectSnapshots r.advance n := by
      rw [collectSnapshots, read_next_frame_of_lt hopen hlt]
    have hlen2 : r.advance.pos + n = r.advance.frames.length := by
      show r.pos + 1 + n = r.frames.length
      omega
    rw [hadv, ih r.advance hopen hlen2]
    rfl

/-- C7: sequential iteration restarted from rewind visits the frame
indices 0 through N-1 exactly once each, in monotonically increasing
order. -/
theorem iteration_visits_in_order (r : Reader) (h : r.isOpen = true) :
    (iterateFromRewind r).map FrameBuffer.frameIndex
      = List.range r.frames.length := by
  have h0 : (reopen r).pos + r.frames.length = (reopen r).frames.length := by
    show 0 + r.frames.length = r.frames.length
    omega
  have hiter : iterateFromRewind r
      = (List.range' 0 r.frames.length).map (fun i =>
          decodeFrame r.caps r.convertUnits r.natoms i
            (r.frames.getD i default)) := by
    unfold iterateFromRewind
    rw [collectSnapshots_eq r.frames.length (reopen r) h h0]
    rfl
  rw [hiter, List.map_map, List.range_eq_range']
  calc (List.range' 0 r.frames.length).map
        (FrameBuffer.frameIndex ∘ fun i =>
          decodeFrame r.caps r.convertUnits r.natoms i
            (r.frames.getD i default))
      = (List.range' 0 r.frames.length).map id :=
        List.map_congr_left (fun i _ => rfl)
    _ = List.range' 0 r.frames.length := List.map_id _

/-- C7 witness: on the concrete 10-frame reader, iteration from rewind
visits exactly the indices 0..9 in order. -/
theorem iteration_visits_in_order_witness :
    sampleReader.isOpen = true ∧
    (iterateFromRewind sampleReader).map FrameBuffer.frameIndex
      = List.range sampleReader.frames.length :=
  ⟨rfl, iteration_visits_in_order sampleReader rfl⟩

/-- A sized trajectory yields a sized frame at every valid index. -/
lemma sizedFrames_getD {natoms : ℕ} {frames : List Frame}
    (h : sizedFrames natoms frames = true) {i : ℕ} (hi : i < frames.length) :
    sizedFrame natoms (frames.getD i default) = true := by
  have hmem : frames.getD i default ∈ frames := by
    rw [List.getD_eq_getElem frames default hi]
    exact List.getElem_mem hi
  exact List.all_eq_true.mp h _ hmem

/-- Decoding a sized frame fills the Frame Buffer respecting the length
invariant. -/
lemma sizedBuffer_decodeFrame {natoms : ℕ} {f : Frame} (caps : FormatCaps)
    (cu : Bool) (i : ℕ) (hf : sizedFrame natoms f = true) :
    sizedBuffer natoms (decodeFrame caps cu natoms i f) = true := by
  obtain ⟨ps, vs, fs, bx, t⟩ := f
  unfold sizedFrame at hf
  unfold sizedBuffer decodeFrame
  cases vs <;> cases fs <;> simp_all

/-- Overwriting the coordinate array with one of the right length keeps
the Frame Buffer sized. -/
lemma sizedBuffer_set {natoms : ℕ} {fb : FrameBuffer} {xs : List Vec3}
    (hbuf : sizedBuffer natoms fb = true) (hx : xs.length = fb.natoms) :
    sizedBuffer natoms { fb with positions := xs } = true := by
  unfold sizedBuffer at hbuf ⊢
  simp only [Bool.and_eq_true, beq_iff_eq] at hbuf ⊢
  obtain ⟨⟨⟨hn, hp⟩, hv⟩, hf⟩ := hbuf
  exact ⟨⟨⟨hn, by rw [hx, hn]⟩, hv⟩, hf⟩

/-- C8: over a sized trajectory the atom count is fixed for the reader's
lifetime — sequential and random reads keep it and always leave a Frame
Buffer whose position, velocity and force sequences (when present) have
exactly that length — and setting a coordinate array of mismatched atom
count fails with `DimensionMismatchError` while an accepted one keeps the
invariant. -/
theorem frame_buffer_invariant (r : Reader)
    (hframes : sizedFrames r.natoms r.frames = true)
    (hbuf : sizedBuffer r.natoms r.buffer = true) :
    (∀ b r2, read_next_frame r = Except.ok (b, r2) →
      r2.natoms = r.natoms ∧ sizedBuffer r.natoms r2.buffer = true) ∧
    (∀ i fb r2, read_frame r i = Except.ok (fb, r2) →
      r2.natoms = r.natoms ∧ sizedBuffer r.natoms fb = true ∧
        sizedBuffer r.natoms r2.buffer = true) ∧
    (∀ xs : List Vec3, xs.length ≠ r.buffer.natoms →
      set_positions r.buffer xs = Except.error MDError.dimensionMismatchError) ∧
    (∀ xs fb2, set_positions r.buffer xs = Except.ok fb2 →
      sizedBuffer r.natoms fb2 = true) := by
  refine ⟨?_, ?_, ?_, ?_⟩
  · intro b r2 hre
    unfold read_next_frame at hre
    split at hre
    · split at hre
      next hlt =>
        simp only [Except.ok.injEq, Prod.mk.injEq] at hre
        obtain ⟨_, hr2⟩ := hre
        subst hr2
        exact ⟨rfl, sizedBuffer_decodeFrame r.caps r.convertUnits r.pos
          (sizedFrames_getD hframes hlt)⟩
      next =>
        simp only [Except.ok.injEq, Prod.mk.injEq] at hre
        obtain ⟨_, hr2⟩ := hre
        subst hr2
        exact ⟨rfl, hbuf⟩
    · simp at hre
  · intro i fb r2 hre
    unfold read_frame at hre
    split at hre
    · split at hre
      next hlt =>
        split at hre
        · simp only [Except.ok.injEq, Prod.mk.injEq] at hre
          obtain ⟨hfb, hr2⟩ := hre
          subst hr2
          subst hfb
          refine ⟨rfl, ?_, ?_⟩ <;>
            exact sizedBuffer_decodeFrame r.caps r.convertUnits i
              (sizedFrames_getD hframes hlt)
        · simp at hre
      next =>
        simp at hre
    · simp at hre
  · intro xs hne
    unfold set_positions
    rw [if_neg hne]
  · intro xs fb2 hset
    unfold set_positions at hset
    split at hset
    next hx =>
      simp only [Except.ok.injEq] at hset
      subst hset
      exact sizedBuffer_set hbuf hx
    next =>
      simp at hset

set_option maxRecDepth 8000 in
/-- C8 witness: on the fresh 214-atom reader the first read keeps the
atom count and the buffer lengths, and setting a 3-atom coordinate array
is rejected. -/
theorem frame_buffer_invariant_witness :
    sizedFrames sampleReader.natoms sampleReader.frames = true ∧
    sizedBuffer sampleReader.natoms sampleReader.buffer = true ∧
    (sampleReader.advance.natoms = sampleReader.natoms ∧
      sizedBuffer sampleReader.natoms sampleReader.advance.buffer = true) ∧
    (List.replicate 3 (default : Vec3)).length ≠ sampleReader.buffer.natoms ∧
    set_positions sampleReader.buffer (List.replicate 3 default)
      = Except.error MDError.dimensionMismatchError :=
  ⟨by decide, by decide,
   (frame_buffer_invariant sampleReader (by decide) (by decide)).1 true
     sampleReader.advance rfl,
   by decide,
   (frame_buffer_invariant sampleReader (by decide) (by decide)).2.2.1
     (List.replicate 3 default) (by decide)⟩

/-- The length factor of any format is positive (hence nonzero). -/
lemma lengthFactor_pos (caps : FormatCaps) : 0 < lengthFactor caps := by
  unfold lengthFactor
  cases h : lookupUnit caps.lengthUnit with
  | none => norm_num
  | some e => exact lookupUnit_pos h

/-- Scaling by the inverse factor and then by the factor is the
identity on a vector. -/
lemma scaleVec_inv_cancel {c : ℚ} (hc : c ≠ 0) (v : Vec3) :
    scaleVec c (scaleVec c⁻¹ v) = v := by
  obtain ⟨a, b, d⟩ := v
  unfold scaleVec
  simp [inv_mul_cancel_right₀ hc]

/-- Decoding an encoded snapshot restores the position array exactly. -/
lemma decode_encode_positions (caps : FormatCaps) (cu : Bool) (n i : ℕ)
    (fb : FrameBuffer) :
    (decodeFrame caps cu n i (encodeFrame caps cu fb)).positions
      = fb.positions := by
  have hc : lengthFactor caps ≠ 0 := ne_of_gt (lengthFactor_pos caps)
  cases cu with
  | false =>
    show (fb.positions.map (scaleVec 1)).map (scaleVec 1) = fb.positions
    rw [List.map_map]
    have h1 : ∀ v ∈ fb.positions, (scaleVec 1 ∘ scaleVec 1) v = id v := by
      intro v _
      simp [scaleVec]
    rw [List.map_congr_left h1, List.map_id]
  | true =>
    show (fb.positions.map (scaleVec (lengthFactor caps)⁻¹)).map
        (scaleVec (lengthFactor caps)) = fb.positions
    rw [List.map_map]
    have h1 : ∀ v ∈ fb.positions,
        (scaleVec (lengthFactor caps) ∘ scaleVec (lengthFactor caps)⁻¹) v
          = id v := by
      intro v _
      exact scaleVec_inv_cancel hc v
    rw [List.map_congr_left h1, List.map_id]

/-- Writing snapshots of the right atom count succeeds and appends their
encodings in order. -/
lemma writeFrames_ok :
    ∀ (bufs : List FrameBuffer) (w : Writer), w.isOpen = true →
      bufs.all (fun fb => fb.positions.length == w.natoms) = true →
      writeFrames w bufs
        = Except.ok { w with
            written := w.written
              ++ bufs.map (encodeFrame w.caps w.convertUnits) } := by
  intro bufs
  induction bufs with
  | nil =>
    intro w hopen _
    simp [writeFrames]
  | cons fb rest ih =>
    intro w hopen hall
    simp only [List.all_cons, Bool.and_eq_true, beq_iff_eq] at hall
    obtain ⟨hlen, hrest⟩ := hall
    have hw : w.write fb = Except.ok { w with
        written := w.written ++ [encodeFrame w.caps w.convertUnits fb] } := by
      unfold Writer.write
      rw [if_pos hopen, if_pos hlen]
    have hihyp : rest.all (fun fb => fb.positions.length ==
        ({ w with written := w.written
            ++ [encodeFrame w.caps w.convertUnits fb] } : Writer).natoms)
          = true := hrest
    have hih := ih { w with
        written := w.written ++ [encodeFrame w.caps w.convertUnits fb] }
      hopen hihyp
    rw [writeFrames]
    simp only [hw]
    rw [hih]
    simp

/-- Indexing a list at 0..length-1 with a default reconstructs it. -/
lemma map_getD_range {α : Type} (d : α) :
    ∀ l : List α, (List.range l.length).map (fun i => l.getD i d) = l := by
  intro l
  induction l with
  | nil => rfl
  | cons x xs ih =>
    rw [List.length_cons, List.range_succ_eq_map]
    simp only [List.map_cons, List.getD_cons_zero, List.map_map]
    exact congrArg (List.cons x) ih

/-- C2: writing N frame snapshots with the Format Writer and reading them
back with the corresponding Format Reader yields exactly the same
positions (hence the same within the format's declared precision) and the
same frame count N. -/
theorem write_read_roundtrip (caps : FormatCaps) (cu : Bool) (n : ℕ)
    (bufs : List FrameBuffer)
    (hlen : bufs.all (fun fb => fb.positions.length == n) = true) :
    ∃ w, writeFrames (mkWriter caps cu n) bufs = Except.ok w ∧
      w.written.length = bufs.length ∧
      (collectSnapshots (openReaderOn caps cu n w.written)
          w.written.length).map FrameBuffer.positions
        = bufs.map FrameBuffer.positions ∧
      (collectSnapshots (openReaderOn caps cu n w.written)
          w.written.length).length = bufs.length := by
  have hw0 := writeFrames_ok bufs (mkWriter caps cu n) rfl hlen
  have hw : writeFrames (mkWriter caps cu n) bufs
      = Except.ok { mkWriter caps cu n with
          written := bufs.map (encodeFrame caps cu) } := by
    rw [hw0]
    exact rfl
  have hcoll := collectSnapshots_eq (bufs.map (encodeFrame caps cu)).length
    (openReaderOn caps cu n (bufs.map (encodeFrame caps cu))) rfl
    (by simp [openReaderOn])
  simp only [openReaderOn] at hcoll
  refine ⟨_, hw, by simp, ?_, ?_⟩
  · show (collectSnapshots
        (openReaderOn caps cu n (bufs.map (encodeFrame caps cu)))
        (bufs.map (encodeFrame caps cu)).length).map FrameBuffer.positions
      = bufs.map FrameBuffer.positions
    rw [show openReaderOn caps cu n (bufs.map (encodeFrame caps cu))
        = { caps := caps, natoms := n, frames := bufs.map (encodeFrame caps cu),
            convertUnits := cu, pos := 0, maxReached := 0, isOpen := true,
            buffer := initialBuffer n } from rfl]
    rw [hcoll, List.map_map]
    have hpt : ∀ i ∈ List.range' 0 (bufs.map (encodeFrame caps cu)).length,
        (FrameBuffer.positions ∘ fun i =>
          decodeFrame caps cu n i
            ((bufs.map (encodeFrame caps cu)).getD i default)) i
        = (FrameBuffer.positions ∘ fun i => bufs.getD i default) i := by
      intro i hi
      have hilt : i < bufs.length := by
        have := List.mem_range'_1.mp hi
        simpa using this.2
      have hgetD : (bufs.map (encodeFrame caps cu)).getD i default
          = encodeFrame caps cu (bufs.getD i default) := by
        rw [List.getD_eq_getElem _ _ (by simpa using hilt),
          List.getElem_map, List.getD_eq_getElem _ _ hilt]
      show (decodeFrame caps cu n i
          ((bufs.map (encodeFrame caps cu)).getD i default)).positions
        = (bufs.getD i default).positions
      rw [hgetD, decode_encode_positions]
    rw [List.map_congr_left hpt]
    have hrange : List.range' 0 (bufs.map (encodeFrame caps cu)).length
        = List.range bufs.length := by
      rw [List.length_map, List.range_eq_range']
    rw [hrange, ← List.map_map]
    rw [map_getD_range]
  · show (collectSnapshots
        (openReaderOn caps cu n (bufs.map (encodeFrame caps cu)))
        (bufs.map (encodeFrame caps cu)).length).length = bufs.length
    rw [show openReaderOn caps cu n (bufs.map (encodeFrame caps cu))
        = { caps := caps, natoms := n, frames := bufs.map (encodeFrame caps cu),
            convertUnits := cu, pos := 0, maxReached := 0, isOpen := true,
            buffer := initialBuffer n } from rfl]
    rw [hcoll]
    simp

/-- C2 witness: the two 2-atom snapshots written in nanometers and read
back give the same positions and frame count. -/
theorem write_read_roundtrip_witness :
    sampleBufs.all (fun fb => fb.positions.length == 2) = true ∧
    (∃ w, writeFrames (mkWriter sampleCaps true 2) sampleBufs = Except.ok w ∧
      w.written.length = sampleBufs.length ∧
      (collectSnapshots (openReaderOn sampleCaps true 2 w.written)
          w.written.length).map FrameBuffer.positions
        = sampleBufs.map FrameBuffer.positions ∧
      (collectSnapshots (openReaderOn sampleCaps true 2 w.written)
          w.written.length).length = sampleBufs.length) :=
  ⟨by decide, write_read_roundtrip sampleCaps true 2 sampleBufs (by decide)⟩

end MDA
